import Mathlib

set_option autoImplicit false

/-!
Shallow embedding of `src/DermaCareNet/full_training_pipeline_yolov5m/pipeline_cv.py`
(class `Yolov5TrainingPipeline`).

The Python program is a four-step orchestration: download and extract a dataset
archive, read the class count from `data.yaml`, render a YOLOv5m config from a
fixed template, and invoke an external trainer as a subprocess.  External
collaborators (the `gdown` fetcher, zip extraction, the YAML parser, and the
child training process) are modelled as an environment record of opaque result
functions; the local filesystem and the observable effect traces (download URLs
requested, subprocess commands run) are modelled as explicit state.
-/

deriving instance DecidableEq for Except

/-- Python exception values relevant to the pipeline.  The constructor
`computerVisionYolov5Exception` models the project's wrapper exception class
`ComputerVisionYolov5Exception(e, sys)`: it carries its cause exception. -/
inductive PyExc where
  | indexError : PyExc
  | keyError : String → PyExc
  | fileNotFoundError : String → PyExc
  | downloadError : String → PyExc
  | badZipFile : String → PyExc
  | yamlError : String → PyExc
  | calledProcessError : Int → String → PyExc
  | computerVisionYolov5Exception : PyExc → PyExc
  deriving DecidableEq

/-- Abbreviation for raising `ComputerVisionYolov5Exception(e, sys)`. -/
def wrapExc (e : PyExc) : PyExc := PyExc.computerVisionYolov5Exception e

/-- Scalar YAML values, enough for the `nc` field of `data.yaml`. -/
inductive YamlVal where
  | int : Int → YamlVal
  | str : String → YamlVal
  | bool : Bool → YamlVal
  deriving DecidableEq

/-- Python `str()` applied to a YAML scalar. -/
def pyStr : YamlVal → String
  | .int n => toString n
  | .str s => s
  | .bool b => if b then "True" else "False"

/-- Python dict subscript on a parsed top-level YAML mapping. -/
def yamlLookup : List (String × YamlVal) → String → Option YamlVal
  | [], _ => none
  | (k, v) :: rest, key => if k = key then some v else yamlLookup rest key

/-- Write a file: replace the entry of the key if present, else append. -/
def setFile : List (String × String) → String → String → List (String × String)
  | [], k, v => [(k, v)]
  | (k0, v0) :: rest, k, v =>
    if k0 = k then (k, v) :: rest else (k0, v0) :: setFile rest k v

/-- Read a file by name. -/
def lookupFile : List (String × String) → String → Option String
  | [], _ => none
  | (k0, v0) :: rest, k => if k0 = k then some v0 else lookupFile rest k

/-- Delete a file by name, modelling `os.remove`. -/
def removeFile : List (String × String) → String → List (String × String)
  | [], _ => []
  | (k0, v0) :: rest, k =>
    if k0 = k then removeFile rest k else (k0, v0) :: removeFile rest k

/-- Add a directory path, modelling `mkdir(exist_ok=True)`. -/
def addDir (ds : List String) (d : String) : List String :=
  if d ∈ ds then ds else ds ++ [d]

/-- `ZipFile.extractall(".")`: write every archive entry into the working
directory, in order (later duplicate entries overwrite earlier ones). -/
def extractAll (files : List (String × String)) :
    List (String × String) → List (String × String)
  | [] => files
  | (name, content) :: rest => extractAll (setFile files name content) rest

/-- The working directory: files (name to content) and directories. -/
structure FileSystem where
  files : List (String × String)
  dirs : List String
  deriving DecidableEq

/-- Observable state of a pipeline run: the filesystem, the list of URLs
handed to `gdown.download`, and the list of command strings handed to
`subprocess.run`, each in invocation order. -/
structure World where
  fs : FileSystem
  downloads : List String
  procCalls : List String
  deriving DecidableEq

/-- External collaborators of the pipeline, as opaque result maps:
`gdown` gives the archive bytes fetched from a URL (or a failure),
`unzipEntries` gives the entry list of an archive (or a failure),
`yamlParse` gives the top-level mapping parsed from a document (or a failure),
and `trainExit` is the exit status of the spawned training process. -/
structure Env where
  gdown : String → Except PyExc String
  unzipEntries : String → Except PyExc (List (String × String))
  yamlParse : String → Except PyExc (List (String × YamlVal))
  trainExit : Int

/-- Python `str.split` with a one-character separator: split at every
occurrence, keeping empty segments. -/
def splitChar (c : Char) : List Char → List (List Char)
  | [] => [[]]
  | x :: xs =>
    let r := splitChar c xs
    if x = c then [] :: r
    else
      match r with
      | [] => [[x]]
      | h :: t => (x :: h) :: t

/-- `url.split("/")` from the source. -/
def url_split (url : String) : List String :=
  (splitChar '/' url.data).map List.asString

/-- `file_id = url.split("/")[-2]`: the second-to-last segment, or an
`IndexError` when there are fewer than two segments. -/
def derive_file_id (url : String) : Except PyExc String :=
  let parts := url_split url
  if h : 2 ≤ parts.length then
    Except.ok (parts.get ⟨parts.length - 2, by omega⟩)
  else
    Except.error PyExc.indexError

/-- `Yolov5TrainingPipeline.download_data_from_drive(url, prefix)`:
derive the file id, fetch `prefix + file_id` to `yolov5pytorch.zip`,
extract all entries into the working directory, delete the archive.
Any failure is wrapped in `ComputerVisionYolov5Exception`; state changes
made before the failure are kept (the `except` clause cleans nothing up). -/
def download_data_from_drive (env : Env) (url pfx : String) (w : World) :
    Except PyExc Unit × World :=
  match derive_file_id url with
  | .error e => (.error (wrapExc e), w)
  | .ok file_id =>
    let wd : World := { w with downloads := w.downloads ++ [pfx ++ file_id] }
    match env.gdown (pfx ++ file_id) with
    | .error e => (.error (wrapExc e), wd)
    | .ok archiveBytes =>
      let w1 : World :=
        { wd with fs := { wd.fs with
            files := setFile wd.fs.files "yolov5pytorch.zip" archiveBytes } }
      match env.unzipEntries archiveBytes with
      | .error e => (.error (wrapExc e), w1)
      | .ok entries =>
        let w2 : World :=
          { w1 with fs := { w1.fs with files := extractAll w1.fs.files entries } }
        let w3 : World :=
          { w2 with fs := { w2.fs with
              files := removeFile w2.fs.files "yolov5pytorch.zip" } }
        (.ok (), w3)

/-- `Yolov5TrainingPipeline.extract_num_class_in_yaml()`:
open `data.yaml`, parse it, take the value at key `nc`, and return
`str` of that value (the method returns a string at runtime, despite its
declared `int` return type).  Any failure is wrapped. -/
def extract_num_class_in_yaml (env : Env) (w : World) :
    Except PyExc String × World :=
  match lookupFile w.fs.files "data.yaml" with
  | none => (.error (wrapExc (PyExc.fileNotFoundError "data.yaml")), w)
  | some content =>
    match env.yamlParse content with
    | .error e => (.error (wrapExc e), w)
    | .ok doc =>
      match yamlLookup doc "nc" with
      | none => (.error (wrapExc (PyExc.keyError "nc")), w)
      | some v => (.ok (pyStr v), w)

/-- Sixteen spaces: the indentation run left in the middle of joined lines
by the backslash continuations of the Python source. -/
def sp16 : String := "                "

/-- The lines of `textwrap.dedent`-processed `config_content` from
`generate_yolov5m_config`, as a function of the interpolated class count
(the Python f-string renders `str(num_classes)`).  Transcribed byte-for-byte
from the source, including the trailing space runs the source lines carry. -/
def configLines (num_classes : String) : List String :=
  [ "# Ultralytics AGPL-3.0 License - https://ultralytics.com/license",
    "",
    "# Parameters",
    "nc: " ++ num_classes ++ " # number of classes",
    "depth_multiple: 0.67 # model depth multiple",
    "width_multiple: 0.75 # layer channel multiple",
    "anchors:",
    "  - [10, 13, 16, 30, 33, 23] # P3/8",
    "  - [30, 61, 62, 45, 59, 119] # P4/16",
    "  - [116, 90, 156, 198, 373, 326] # P5/32" ++ sp16,
    "",
    "# YOLOv5 v6.0 backbone",
    "backbone:",
    "  # [from, number, module, args]",
    "  [",
    "    [-1, 1, Conv, [64, 6, 2, 2]], # 0-P1/2",
    "    [-1, 1, Conv, [128, 3, 2]], # 1-P2/4",
    "    [-1, 3, C3, [128]],",
    "    [-1, 1, Conv, [256, 3, 2]], # 3-P3/8",
    "    [-1, 6, C3, [256]],",
    "    [-1, 1, Conv, [512, 3, 2]], # 5-P4/16",
    "    [-1, 9, C3, [512]],",
    "    [-1, 1, Conv, [1024, 3, 2]], # 7-P5/32",
    "    [-1, 3, C3, [1024]],",
    "    [-1, 1, SPPF, [1024, 5]], # 9",
    "  ]" ++ sp16,
    "",
    "# YOLOv5 v6.0 head",
    "head: [",
    "    [-1, 1, Conv, [512, 1, 1]],",
    "    [-1, 1, nn.Upsample, [None, 2, \"nearest\"]],",
    "    [[-1, 6], 1, Concat, [1]], # cat backbone P4",
    "    [-1, 3, C3, [512, False]], # 13" ++ sp16,
    "",
    "    [-1, 1, Conv, [256, 1, 1]],",
    "    [-1, 1, nn.Upsample, [None, 2, \"nearest\"]],",
    "    [[-1, 4], 1, Concat, [1]], # cat backbone P3",
    "    [-1, 3, C3, [256, False]], # 17 (P3/8-small)" ++ sp16,
    "",
    "    [-1, 1, Conv, [256, 3, 2]],",
    "    [[-1, 14], 1, Concat, [1]], # cat head P4",
    "    [-1, 3, C3, [512, False]], # 20 (P4/16-medium)" ++ sp16,
    "",
    "    [-1, 1, Conv, [512, 3, 2]],",
    "    [[-1, 10], 1, Concat, [1]], # cat head P5",
    "    [-1, 3, C3, [1024, False]], # 23 (P5/32-large)" ++ sp16,
    "",
    "    [[17, 20, 23], 1, Detect, [nc, anchors]], # Detect(P3, P4, P5)",
    "  ]" ]

/-- The full rendered config file content (lines joined by newlines, with a
final trailing newline, exactly as the dedented Python string ends). -/
def config_content (num_classes : String) : String :=
  String.intercalate "\n" (configLines num_classes) ++ "\n"

/-- The path `Path("yolov5") / "models" / filename` the renderer writes to. -/
def configOutputPath (filename : String) : String :=
  "yolov5/models/" ++ filename

/-- `Yolov5TrainingPipeline.generate_yolov5m_config(num_classes, filename)`:
create `yolov5` and `yolov5/models` (with parents, `exist_ok`), then write
the rendered content to `yolov5/models/<filename>`, overwriting any existing
file.  In this model the filesystem write itself cannot fail. -/
def generate_yolov5m_config (num_classes filename : String) (w : World) :
    Except PyExc Unit × World :=
  let content := config_content num_classes
  let ds := addDir (addDir w.fs.dirs "yolov5") "yolov5/models"
  let fl := setFile w.fs.files (configOutputPath filename) content
  (.ok (), { w with fs := { files := fl, dirs := ds } })

/-- The `textwrap.dedent`-processed training command string built by
`yolo5m_training`: the backslash continuations join all flag lines into one
command line (leaving sixteen-space runs between flags), `dedent` strips the
common margin and blanks the final whitespace-only line. -/
def train_cmd (img_size batch epochs : Int) (data_yaml yolo5m : String) : String :=
  "\ncd yolov5 && " ++ sp16 ++ "python train.py --img " ++ toString img_size
    ++ " " ++ sp16 ++ "--batch " ++ toString batch
    ++ " " ++ sp16 ++ "--epochs " ++ toString epochs
    ++ " " ++ sp16 ++ "--data " ++ data_yaml
    ++ " " ++ sp16 ++ "--cfg ./models/custom_yolov5m.yaml"
    ++ " " ++ sp16 ++ "--weights " ++ yolo5m
    ++ " " ++ sp16 ++ "--name yolov5m_640_results"
    ++ " " ++ sp16 ++ "--cache\n"

/-- `Yolov5TrainingPipeline.yolo5m_training(...)`: build the command, run it
once through `subprocess.run(cmd, shell=True, check=True)` (recorded on the
`procCalls` trace), and on a non-zero exit status raise the wrapper exception
with the `CalledProcessError` as its cause. -/
def yolo5m_training (env : Env) (img_size batch epochs : Int)
    (data_yaml yolo5m : String) (w : World) : Except PyExc Unit × World :=
  let cmd := train_cmd img_size batch epochs data_yaml yolo5m
  let w1 : World := { w with procCalls := w.procCalls ++ [cmd] }
  if env.trainExit = 0 then (.ok (), w1)
  else (.error (wrapExc (PyExc.calledProcessError env.trainExit cmd)), w1)

/-- The body of `initialize_pipeline`'s `try` block: the four steps run in
sequence, a step's failure aborting the rest and propagating as it is. -/
def pipeline_steps (env : Env) (url pfx : String) (w : World) :
    Except PyExc Unit × World :=
  match download_data_from_drive env url pfx w with
  | (.error e, w1) => (.error e, w1)
  | (.ok _, w1) =>
    match extract_num_class_in_yaml env w1 with
    | (.error e, w2) => (.error e, w2)
    | (.ok num_classes, w2) =>
      match generate_yolov5m_config num_classes "custom_yolov5m.yaml" w2 with
      | (.error e, w3) => (.error e, w3)
      | (.ok _, w3) => yolo5m_training env 640 8 2 "../data.yaml" "yolov5m.pt" w3

/-- `Yolov5TrainingPipeline.initialize_pipeline()`: run the four steps with
the fixed literal arguments; the surrounding `try/except` catches whatever a
step raised and raises `ComputerVisionYolov5Exception(e, sys)` around it. -/
def init_pipeline (env : Env) (url pfx : String) (w : World) :
    Except PyExc Unit × World :=
  match download_data_from_drive env url pfx w with
  | (.error e, w1) => (.error (wrapExc e), w1)
  | (.ok _, w1) =>
    match extract_num_class_in_yaml env w1 with
    | (.error e, w2) => (.error (wrapExc e), w2)
    | (.ok num_classes, w2) =>
      match generate_yolov5m_config num_classes "custom_yolov5m.yaml" w2 with
      | (.error e, w3) => (.error (wrapExc e), w3)
      | (.ok _, w3) =>
        match yolo5m_training env 640 8 2 "../data.yaml" "yolov5m.pt" w3 with
        | (.error e, w4) => (.error (wrapExc e), w4)
        | (.ok a, w4) => (.ok a, w4)

/-- Wrap the error component of a step outcome once, leaving the state and
any success value untouched: the effect of `initialize_pipeline`'s handler. -/
def wrapResult : Except PyExc Unit × World → Except PyExc Unit × World
  | (.ok a, w) => (.ok a, w)
  | (.error e, w) => (.error (wrapExc e), w)

/-- The training command `initialize_pipeline` issues on its success path. -/
def pipelineTrainCmd : String :=
  train_cmd 640 8 2 "../data.yaml" "yolov5m.pt"

/-- Substring search over character lists. -/
def listContains (needle : List Char) : List Char → Bool
  | [] => needle.isEmpty
  | c :: t => needle.isPrefixOf (c :: t) || listContains needle t

/-- `sub` occurs as a contiguous substring of `s`. -/
def containsStr (s sub : String) : Bool :=
  listContains sub.data s.data

/-- An environment in which every external collaborator succeeds: the fetch
yields an archive whose entries include a `data.yaml` declaring `nc: 2`, the
parser parses that document, and the training process exits with status 0. -/
def envOk : Env :=
  { gdown := fun _ => .ok "ZIPBYTES",
    unzipEntries := fun _ => .ok [("data.yaml", "nc: 2"), ("train/images", "IMGS")],
    yamlParse := fun s =>
      if s = "nc: 2" then .ok [("nc", .int 2)] else .error (.yamlError "bad document"),
    trainExit := 0 }

/-- Like `envOk`, but the fetch fails with a network error. -/
def envDownloadFail : Env :=
  { envOk with gdown := fun _ => .error (.downloadError "network unreachable") }

/-- Like `envOk`, but the training process exits with status 1. -/
def envTrainFail : Env := { envOk with trainExit := 1 }

/-- Like `envOk`, but every document parses to a mapping without `nc`. -/
def envNoKey : Env :=
  { envOk with yamlParse := fun _ => .ok [("names", .str "melanoma")] }

/-- Like `envOk`, but every document parses to the fixture mapping `nc: 5`. -/
def env5 : Env := { envOk with yamlParse := fun _ => .ok [("nc", .int 5)] }

/-- The empty initial world. -/
def w0 : World := { fs := { files := [], dirs := [] }, downloads := [], procCalls := [] }

/-- A world whose working directory already holds a `data.yaml`. -/
def wYaml : World :=
  { w0 with fs := { files := [("data.yaml", "nc: 5")], dirs := [] } }

/-! ## Library lemmas about the filesystem primitives -/

theorem lookupFile_setFile_self (l : List (String × String)) (k v : String) :
    lookupFile (setFile l k v) k = some v := by
  induction l with
  | nil => simp [setFile, lookupFile]
  | cons p rest ih =>
    obtain ⟨k0, v0⟩ := p
    by_cases h : k0 = k <;> simp [setFile, lookupFile, h, ih]

theorem lookupFile_setFile_ne (l : List (String × String)) (k v k' : String)
    (h : k' ≠ k) : lookupFile (setFile l k v) k' = lookupFile l k' := by
  induction l with
  | nil => simp [setFile, lookupFile, Ne.symm h]
  | cons p rest ih =>
    obtain ⟨k0, v0⟩ := p
    by_cases h0 : k0 = k
    · subst h0
      simp [setFile, lookupFile, h, Ne.symm h]
    · by_cases h1 : k0 = k' <;> simp [setFile, lookupFile, h0, h1, h, ih]

theorem lookupFile_removeFile_self (l : List (String × String)) (k : String) :
    lookupFile (removeFile l k) k = none := by
  induction l with
  | nil => simp [removeFile, lookupFile]
  | cons p rest ih =>
    obtain ⟨k0, v0⟩ := p
    by_cases h : k0 = k <;> simp [removeFile, lookupFile, h, ih]

theorem lookupFile_removeFile_ne (l : List (String × String)) (k k' : String)
    (h : k' ≠ k) : lookupFile (removeFile l k) k' = lookupFile l k' := by
  induction l with
  | nil => simp [removeFile, lookupFile]
  | cons p rest ih =>
    obtain ⟨k0, v0⟩ := p
    by_cases h0 : k0 = k
    · subst h0
      simp [removeFile, lookupFile, Ne.symm h, ih]
    · by_cases h1 : k0 = k' <;> simp [removeFile, lookupFile, h0, h1, h, ih]

theorem setFile_setFile_self (l : List (String × String)) (k v v' : String) :
    setFile (setFile l k v) k v' = setFile l k v' := by
  induction l with
  | nil => simp [setFile]
  | cons p rest ih =>
    obtain ⟨k0, v0⟩ := p
    by_cases h : k0 = k <;> simp [setFile, h, ih]

theorem mem_addDir_self (ds : List String) (d : String) : d ∈ addDir ds d := by
  by_cases h : d ∈ ds <;> simp [addDir, h]

theorem mem_addDir_of_mem (ds : List String) (d e : String) (h : e ∈ ds) :
    e ∈ addDir ds d := by
  by_cases h0 : d ∈ ds <;> simp [addDir, h0, h]

theorem addDir_of_mem (ds : List String) (d : String) (h : d ∈ ds) :
    addDir ds d = ds := by
  simp [addDir, h]

theorem lookupFile_extractAll_not_mem (es : List (String × String))
    (fs : List (String × String)) (nm : String) (h : nm ∉ es.map Prod.fst) :
    lookupFile (extractAll fs es) nm = lookupFile fs nm := by
  induction es generalizing fs with
  | nil => simp [extractAll]
  | cons p rest ih =>
    obtain ⟨n0, c0⟩ := p
    simp only [List.map_cons, List.mem_cons, not_or] at h
    rw [extractAll, ih _ h.2, lookupFile_setFile_ne _ _ _ _ h.1]

theorem lookupFile_extractAll_mem (es : List (String × String))
    (fs : List (String × String)) (nm c : String)
    (hnd : (es.map Prod.fst).Nodup) (hmem : (nm, c) ∈ es) :
    lookupFile (extractAll fs es) nm = some c := by
  induction es generalizing fs with
  | nil => simp at hmem
  | cons p rest ih =>
    obtain ⟨n0, c0⟩ := p
    simp only [List.map_cons, List.nodup_cons] at hnd
    rcases List.mem_cons.mp hmem with heq | htail
    · injection heq with h1 h2
      subst h1; subst h2
      show lookupFile (extractAll (setFile fs nm c) rest) nm = some c
      rw [lookupFile_extractAll_not_mem _ _ _ hnd.1, lookupFile_setFile_self]
    · show lookupFile (extractAll (setFile fs n0 c0) rest) nm = some c
      exact ih _ hnd.2 htail

/-! ## Step-level lemmas -/

theorem download_procCalls (env : Env) (url pfx : String) (w : World) :
    ((download_data_from_drive env url pfx w).2).procCalls = w.procCalls := by
  unfold download_data_from_drive
  rcases derive_file_id url with e | fid
  · rfl
  · dsimp only
    rcases env.gdown (pfx ++ fid) with e | bytes
    · rfl
    · dsimp only
      rcases env.unzipEntries bytes with e | entries <;> rfl

theorem extract_world (env : Env) (w : World) :
    (extract_num_class_in_yaml env w).2 = w := by
  unfold extract_num_class_in_yaml
  rcases lookupFile w.fs.files "data.yaml" with _ | content
  · rfl
  · dsimp only
    rcases env.yamlParse content with e | doc
    · rfl
    · dsimp only
      rcases yamlLookup doc "nc" with _ | v <;> rfl

theorem generate_procCalls (num_classes filename : String) (w : World) :
    ((generate_yolov5m_config num_classes filename w).2).procCalls = w.procCalls :=
  rfl

theorem training_procCalls (env : Env) (img_size batch epochs : Int)
    (data_yaml yolo5m : String) (w : World) :
    ((yolo5m_training env img_size batch epochs data_yaml yolo5m w).2).procCalls
      = w.procCalls ++ [train_cmd img_size batch epochs data_yaml yolo5m] := by
  unfold yolo5m_training
  split <;> rfl

/-! ## String and substring lemmas -/

theorem str_data_append (a b : String) : (a ++ b).data = a.data ++ b.data := by
  cases a
  cases b
  rfl

theorem isPrefixOf_append_self (n rest : List Char) :
    n.isPrefixOf (n ++ rest) = true := by
  induction n with
  | nil => simp [List.isPrefixOf]
  | cons c t ih => simp [List.isPrefixOf, ih]

theorem listContains_of_isPrefixOf (n l : List Char)
    (h : n.isPrefixOf l = true) : listContains n l = true := by
  cases l with
  | nil =>
    cases n with
    | nil => rfl
    | cons c t => simp [List.isPrefixOf] at h
  | cons c t => simp [listContains, h]

theorem listContains_append_right (n : List Char) {b : List Char} (a : List Char)
    (h : listContains n b = true) : listContains n (a ++ b) = true := by
  induction a with
  | nil => simpa using h
  | cons c t ih => simp [listContains, ih]

theorem str_append_left_cancel (p a b : String) (h : p ++ a = p ++ b) : a = b := by
  have h2 : (p ++ a).data = (p ++ b).data := congrArg String.data h
  rw [str_data_append, str_data_append] at h2
  have h3 : a.data = b.data := List.append_cancel_left h2
  cases a
  cases b
  exact congrArg String.mk h3

/-! ## Claim theorems -/

/-- C1 (amended): a failure raised inside any of the four steps propagates to
the caller of `initialize_pipeline` with exactly one additional
`ComputerVisionYolov5Exception` wrapped around the step's exception — the
caller receives the wrapper of the step's exception, not the step's exception
object itself — and the world state is exactly the state the failing prefix of
the pipeline left behind (no rollback of artifacts already produced); a
successful run is passed through unchanged. -/
theorem c1_wraps_step_failure_once_no_rollback (env : Env) (url pfx : String)
    (w : World) :
    init_pipeline env url pfx w = wrapResult (pipeline_steps env url pfx w) := by
  unfold init_pipeline pipeline_steps wrapResult
  rcases download_data_from_drive env url pfx w with ⟨e | u, w1⟩
  · rfl
  · dsimp only
    rcases extract_num_class_in_yaml env w1 with ⟨e | nc, w2⟩
    · rfl
    · dsimp only
      rcases generate_yolov5m_config nc "custom_yolov5m.yaml" w2 with ⟨e | u2, w3⟩
      · rfl
      · dsimp only
        rcases yolo5m_training env 640 8 2 "../data.yaml" "yolov5m.pt" w3 with
          ⟨e | u3, w4⟩ <;> rfl

/-- C1 (counterexample): with a failing fetch, the download step raises the
wrapped download error, but the exception `initialize_pipeline` hands to its
caller is a second wrapper around that exception — not the same exception the
failing step raised, refuting the claim's "no additional wrapping". -/
theorem c1_counterexample :
    (download_data_from_drive envDownloadFail
        "https://drive.google.com/file/d/1abcDEF/view"
        "https://drive.google.com/uc?id=" w0).1
      = .error (wrapExc (.downloadError "network unreachable"))
    ∧ (init_pipeline envDownloadFail
        "https://drive.google.com/file/d/1abcDEF/view"
        "https://drive.google.com/uc?id=" w0).1
      = .error (wrapExc (wrapExc (.downloadError "network unreachable")))
    ∧ (init_pipeline envDownloadFail
        "https://drive.google.com/file/d/1abcDEF/view"
        "https://drive.google.com/uc?id=" w0).1
      ≠ (download_data_from_drive envDownloadFail
        "https://drive.google.com/file/d/1abcDEF/view"
        "https://drive.google.com/uc?id=" w0).1 :=
  ⟨by decide, by decide, by decide⟩

/-- C2: whenever `initialize_pipeline` returns successfully, it has issued
exactly one subprocess invocation — regardless of the URL and prefix — and the
command string handed to the subprocess embeds the fixed hyperparameters as
the flags `--img 640`, `--batch 8`, `--epochs 2`, `--data ../data.yaml` and
`--weights yolov5m.pt`. -/
theorem c2_single_training_invocation (env : Env) (url pfx : String) (w : World)
    (h : (init_pipeline env url pfx w).1 = .ok ()) :
    ((init_pipeline env url pfx w).2).procCalls = w.procCalls ++ [pipelineTrainCmd]
    ∧ containsStr pipelineTrainCmd "--img 640" = true
    ∧ containsStr pipelineTrainCmd "--batch 8" = true
    ∧ containsStr pipelineTrainCmd "--epochs 2" = true
    ∧ containsStr pipelineTrainCmd "--data ../data.yaml" = true
    ∧ containsStr pipelineTrainCmd "--weights yolov5m.pt" = true := by
  refine ⟨?_, by decide, by decide, by decide, by decide, by decide⟩
  unfold init_pipeline at h ⊢
  rcases hd : download_data_from_drive env url pfx w with ⟨rd, w1⟩
  rw [hd] at h
  rcases rd with e | u
  · simp at h
  · dsimp only at h ⊢
    rcases hx : extract_num_class_in_yaml env w1 with ⟨rx, w2⟩
    rw [hx] at h
    rcases rx with e | nc
    · simp at h
    · dsimp only at h ⊢
      rcases hg : generate_yolov5m_config nc "custom_yolov5m.yaml" w2 with ⟨rg, w3⟩
      rw [hg] at h
      rcases rg with e | u2
      · simp at h
      · dsimp only at h ⊢
        rcases ht : yolo5m_training env 640 8 2 "../data.yaml" "yolov5m.pt" w3 with
          ⟨rt, w4⟩
        rw [ht] at h
        rcases rt with e | u3
        · simp at h
        · dsimp only
          have e1 : w1.procCalls = w.procCalls := by
            have hp := download_procCalls env url pfx w
            rw [hd] at hp
            exact hp
          have e2 : w2 = w1 := by
            have hp := extract_world env w1
            rw [hx] at hp
            exact hp
          have e3 : w3.procCalls = w2.procCalls := by
            have hp := generate_procCalls nc "custom_yolov5m.yaml" w2
            rw [hg] at hp
            exact hp
          have e4 : w4.procCalls
              = w3.procCalls ++ [train_cmd 640 8 2 "../data.yaml" "yolov5m.pt"] := by
            have hp := training_procCalls env 640 8 2 "../data.yaml" "yolov5m.pt" w3
            rw [ht] at hp
            exact hp
          rw [e4, e3, e2, e1]
          rfl

/-- C2 (witness): a concrete fully successful run issues exactly the one
training command, with all five fixed flags embedded. -/
theorem c2_witness :
    (init_pipeline envOk "https://drive.google.com/file/d/1abcDEF/view"
        "https://drive.google.com/uc?id=" w0).1 = .ok ()
    ∧ ((init_pipeline envOk "https://drive.google.com/file/d/1abcDEF/view"
        "https://drive.google.com/uc?id=" w0).2).procCalls
      = w0.procCalls ++ [pipelineTrainCmd]
    ∧ containsStr pipelineTrainCmd "--img 640" = true
    ∧ containsStr pipelineTrainCmd "--batch 8" = true
    ∧ containsStr pipelineTrainCmd "--epochs 2" = true
    ∧ containsStr pipelineTrainCmd "--data ../data.yaml" = true
    ∧ containsStr pipelineTrainCmd "--weights yolov5m.pt" = true := by
  have hok : (init_pipeline envOk "https://drive.google.com/file/d/1abcDEF/view"
      "https://drive.google.com/uc?id=" w0).1 = .ok () := by decide
  have h := c2_single_training_invocation envOk
    "https://drive.google.com/file/d/1abcDEF/view"
    "https://drive.google.com/uc?id=" w0 hok
  exact ⟨hok, h.1, h.2.1, h.2.2.1, h.2.2.2.1, h.2.2.2.2.1, h.2.2.2.2.2⟩

/-- C3: for every URL whose second-to-last slash-separated segment is `fid`
(the `.../d/<ID>/view` shape), the download step derives exactly `fid` as the
file identifier, and the URL it hands to the fetcher is the concatenation of
the given prefix and `fid`. -/
theorem c3_file_id_and_download_url (env : Env) (w : World) (url pfx fid : String)
    (hlen : 2 ≤ (url_split url).length)
    (hid : (url_split url).get? ((url_split url).length - 2) = some fid) :
    derive_file_id url = .ok fid
    ∧ ((download_data_from_drive env url pfx w).2).downloads
      = w.downloads ++ [pfx ++ fid] := by
  have hlt : (url_split url).length - 2 < (url_split url).length := by omega
  have h1 : derive_file_id url = .ok fid := by
    unfold derive_file_id
    rw [dif_pos hlen]
    rw [List.get?_eq_get hlt] at hid
    exact congrArg Except.ok (Option.some_injective _ hid)
  refine ⟨h1, ?_⟩
  unfold download_data_from_drive
  rw [h1]
  dsimp only
  rcases envGd : env.gdown (pfx ++ fid) with e | archiveBytes
  · rfl
  · dsimp only
    rcases env.unzipEntries archiveBytes with e | entries <;> rfl

/-- C3 (witness): the Google-Drive-shaped fixture URL yields the identifier
`1abcDEF`, and the fetcher is handed prefix-plus-identifier. -/
theorem c3_witness :
    derive_file_id "https://drive.google.com/file/d/1abcDEF/view" = .ok "1abcDEF"
    ∧ ((download_data_from_drive envOk "https://drive.google.com/file/d/1abcDEF/view"
        "https://drive.google.com/uc?id=" w0).2).downloads
      = w0.downloads ++ ["https://drive.google.com/uc?id=" ++ "1abcDEF"] :=
  c3_file_id_and_download_url envOk w0 "https://drive.google.com/file/d/1abcDEF/view"
    "https://drive.google.com/uc?id=" "1abcDEF" (by decide) (by decide)

/-- C4: whenever `data.yaml` exists and parses to a mapping that carries the
key `nc` with value `v`, the class-count reader returns `str(v)` — a string,
which is what the embedding's return type records, despite the Python
method's declared `int` return annotation. -/
theorem c4_nc_string (env : Env) (w : World) (content : String)
    (doc : List (String × YamlVal)) (v : YamlVal)
    (hf : lookupFile w.fs.files "data.yaml" = some content)
    (hp : env.yamlParse content = .ok doc)
    (hk : yamlLookup doc "nc" = some v) :
    (extract_num_class_in_yaml env w).1 = .ok (pyStr v) := by
  unfold extract_num_class_in_yaml
  rw [hf]
  dsimp only
  rw [hp]
  dsimp only
  rw [hk]

/-- C4 (witness): for the fixture document parsing to `{nc: 5}` the reader
returns the string `"5"`. -/
theorem c4_witness : (extract_num_class_in_yaml env5 wYaml).1 = .ok "5" :=
  c4_nc_string env5 wYaml "nc: 5" [("nc", .int 5)] (.int 5) rfl rfl rfl

/-- C5: whenever `data.yaml` exists and parses to a mapping without the key
`nc`, the class-count reader fails with the wrapped domain exception carrying
the `KeyError` as its cause, and returns no value. -/
theorem c5_missing_nc_key (env : Env) (w : World) (content : String)
    (doc : List (String × YamlVal))
    (hf : lookupFile w.fs.files "data.yaml" = some content)
    (hp : env.yamlParse content = .ok doc)
    (hk : yamlLookup doc "nc" = none) :
    (extract_num_class_in_yaml env w).1
      = .error (wrapExc (PyExc.keyError "nc")) := by
  unfold extract_num_class_in_yaml
  rw [hf]
  dsimp only
  rw [hp]
  dsimp only
  rw [hk]

/-- C5 (witness): a document parsing to a mapping with only a `names` key
makes the reader raise the wrapped `KeyError`. -/
theorem c5_witness :
    (extract_num_class_in_yaml envNoKey wYaml).1
      = .error (wrapExc (PyExc.keyError "nc")) :=
  c5_missing_nc_key envNoKey wYaml "nc: 5" [("names", .str "melanoma")] rfl rfl rfl

set_option maxRecDepth 10000 in
/-- C6: rendering the config with class count 3 is deterministic and
idempotent and produces content whose line at index 3 is exactly
`nc: 3 # number of classes` — so the literal text `nc: 3` occurs in the
content — while every line other than that one is the fixed template line,
independent of the class count; re-running the renderer with the same class
count and filename leaves the world byte-identical. -/
theorem c6_render_deterministic_idempotent (filename : String) (w : World) :
    (configLines "3").get? 3 = some "nc: 3 # number of classes"
    ∧ containsStr (config_content "3") "nc: 3" = true
    ∧ (∀ a b : String, (configLines a).eraseIdx 3 = (configLines b).eraseIdx 3)
    ∧ lookupFile ((generate_yolov5m_config "3" filename w).2).fs.files
        (configOutputPath filename) = some (config_content "3")
    ∧ (generate_yolov5m_config "3" filename
        ((generate_yolov5m_config "3" filename w).2)).2
      = (generate_yolov5m_config "3" filename w).2 := by
  refine ⟨rfl, by decide, fun a b => rfl, lookupFile_setFile_self _ _ _, ?_⟩
  unfold generate_yolov5m_config
  dsimp only
  have hy : "yolov5" ∈ addDir (addDir w.fs.dirs "yolov5") "yolov5/models" :=
    mem_addDir_of_mem _ _ _ (mem_addDir_self _ _)
  have hm : "yolov5/models" ∈ addDir (addDir w.fs.dirs "yolov5") "yolov5/models" :=
    mem_addDir_self _ _
  rw [setFile_setFile_self, addDir_of_mem _ _ hy, addDir_of_mem _ _ hm]

/-- C7: for every filename and every starting world (the destination
directory possibly absent, a file possibly already present at the target
path), the renderer succeeds, both `yolov5` and `yolov5/models` exist
afterwards, and the file at `yolov5/models/<filename>` holds exactly the
rendered content — overwriting whatever was there. -/
theorem c7_renderer_creates_dirs_and_writes (num_classes filename : String)
    (w : World) :
    (generate_yolov5m_config num_classes filename w).1 = .ok ()
    ∧ "yolov5" ∈ ((generate_yolov5m_config num_classes filename w).2).fs.dirs
    ∧ "yolov5/models" ∈ ((generate_yolov5m_config num_classes filename w).2).fs.dirs
    ∧ lookupFile ((generate_yolov5m_config num_classes filename w).2).fs.files
        (configOutputPath filename) = some (config_content num_classes) :=
  ⟨rfl, mem_addDir_of_mem _ _ _ (mem_addDir_self _ _), mem_addDir_self _ _,
    lookupFile_setFile_self _ _ _⟩

/-- C8: whenever the training child process exits with a non-zero status, the
invoker raises the wrapped domain exception whose cause is the original
`CalledProcessError` carrying that status and the full command (nothing
masked), does not return normally, and has run the command exactly once. -/
theorem c8_nonzero_exit_wrapped (env : Env) (img_size batch epochs : Int)
    (data_yaml yolo5m : String) (w : World) (h : env.trainExit ≠ 0) :
    (yolo5m_training env img_size batch epochs data_yaml yolo5m w).1
      = .error (wrapExc (PyExc.calledProcessError env.trainExit
          (train_cmd img_size batch epochs data_yaml yolo5m)))
    ∧ ((yolo5m_training env img_size batch epochs data_yaml yolo5m w).2).procCalls
      = w.procCalls ++ [train_cmd img_size batch epochs data_yaml yolo5m] := by
  constructor
  · unfold yolo5m_training
    dsimp only
    rw [if_neg h]
  · exact training_procCalls env img_size batch epochs data_yaml yolo5m w

/-- C8 (witness): with exit status 1 and the pipeline's fixed arguments, the
invoker raises the wrapper around `CalledProcessError(1, cmd)` after the
single invocation. -/
theorem c8_witness :
    (yolo5m_training envTrainFail 640 8 2 "../data.yaml" "yolov5m.pt" w0).1
      = .error (wrapExc (PyExc.calledProcessError 1 pipelineTrainCmd))
    ∧ ((yolo5m_training envTrainFail 640 8 2 "../data.yaml" "yolov5m.pt" w0).2).procCalls
      = [pipelineTrainCmd] :=
  c8_nonzero_exit_wrapped envTrainFail 640 8 2 "../data.yaml" "yolov5m.pt" w0
    (by decide)

/-- C9: after a successful run of the download step the local archive
`yolov5pytorch.zip` no longer exists, while every extracted entry (with a
name distinct from the archive's, under distinct entry names) is present in
the working directory with its archive content. -/
theorem c9_archive_deleted_contents_remain (env : Env) (url pfx : String)
    (w : World) (fid archiveBytes : String) (entries : List (String × String))
    (hfid : derive_file_id url = .ok fid)
    (hgd : env.gdown (pfx ++ fid) = .ok archiveBytes)
    (hz : env.unzipEntries archiveBytes = .ok entries) :
    (download_data_from_drive env url pfx w).1 = .ok ()
    ∧ lookupFile ((download_data_from_drive env url pfx w).2).fs.files
        "yolov5pytorch.zip" = none
    ∧ ∀ nm c, (entries.map Prod.fst).Nodup → (nm, c) ∈ entries →
        nm ≠ "yolov5pytorch.zip" →
        lookupFile ((download_data_from_drive env url pfx w).2).fs.files nm
          = some c := by
  unfold download_data_from_drive
  rw [hfid]
  dsimp only
  rw [hgd]
  dsimp only
  rw [hz]
  dsimp only
  refine ⟨rfl, lookupFile_removeFile_self _ _, ?_⟩
  intro nm c hnd hmem hne
  rw [lookupFile_removeFile_ne _ _ _ hne]
  exact lookupFile_extractAll_mem _ _ _ _ hnd hmem

/-- C9 (witness): on a concrete successful download, the archive is gone and
the extracted `data.yaml` entry remains with its content. -/
theorem c9_witness :
    (download_data_from_drive envOk "https://drive.google.com/file/d/1abcDEF/view"
        "https://drive.google.com/uc?id=" w0).1 = .ok ()
    ∧ lookupFile ((download_data_from_drive envOk
        "https://drive.google.com/file/d/1abcDEF/view"
        "https://drive.google.com/uc?id=" w0).2).fs.files "yolov5pytorch.zip" = none
    ∧ lookupFile ((download_data_from_drive envOk
        "https://drive.google.com/file/d/1abcDEF/view"
        "https://drive.google.com/uc?id=" w0).2).fs.files "data.yaml"
      = some "nc: 2" := by
  have h := c9_archive_deleted_contents_remain envOk
    "https://drive.google.com/file/d/1abcDEF/view" "https://drive.google.com/uc?id="
    w0 "1abcDEF" "ZIPBYTES" [("data.yaml", "nc: 2"), ("train/images", "IMGS")]
    (by decide) rfl rfl
  exact ⟨h.1, h.2.1, h.2.2 "data.yaml" "nc: 2" (by decide) (by decide) (by decide)⟩

/-- C10: for any hyperparameter arguments, the command built by the training
invoker contains the fixed flag text `--cfg ./models/custom_yolov5m.yaml`
(the invoker takes no config-filename argument at all), and for every
filename other than the default, the path the renderer writes to differs
from `yolov5/models/custom_yolov5m.yaml`, the path the command's `--cfg`
resolves to after its `cd yolov5` — so such a rendered file is never
referenced by the training invocation. -/
theorem c10_cfg_path_fixed (img_size batch epochs : Int)
    (data_yaml yolo5m filename : String) (h : filename ≠ "custom_yolov5m.yaml") :
    containsStr (train_cmd img_size batch epochs data_yaml yolo5m)
      "--cfg ./models/custom_yolov5m.yaml" = true
    ∧ configOutputPath filename ≠ configOutputPath "custom_yolov5m.yaml" := by
  constructor
  · unfold containsStr train_cmd
    simp only [str_data_append, List.append_assoc]
    iterate 18 apply listContains_append_right
    exact listContains_of_isPrefixOf _ _ (isPrefixOf_append_self _ _)
  · intro hc
    exact h (str_append_left_cancel "yolov5/models/" filename "custom_yolov5m.yaml" hc)

/-- C10 (witness): with the pipeline's own arguments the command carries the
fixed `--cfg` path, and a config rendered as `other_config.yaml` lands at a
path the command does not reference. -/
theorem c10_witness :
    containsStr (train_cmd 640 8 2 "../data.yaml" "yolov5m.pt")
      "--cfg ./models/custom_yolov5m.yaml" = true
    ∧ configOutputPath "other_config.yaml"
      ≠ configOutputPath "custom_yolov5m.yaml" :=
  c10_cfg_path_fixed 640 8 2 "../data.yaml" "yolov5m.pt" "other_config.yaml"
    (by decide)
